import Mathlib

/-!
# Verification of the logistics-dashboard backend core

A shallow embedding in Lean 4 of the Python backend under
`src/backend/app`, together with theorems settling the specified
properties of the metrics simulator, the metrics store/service, the
websocket connection manager and the metrics broadcaster.

Modelling conventions:
* Python `float` values are modelled as exact rationals (`ℚ`).
* `datetime` values are modelled as rational seconds; `timedelta(minutes=5)`
  is `300`.
* The seeded PRNG `random.Random(seed)` is deterministic; it is modelled as
  a stream `usample : ℕ → ℚ` of unit draws (the successive outputs of
  `random()`), so that `uniform(a, b)` of the k-th call is
  `a + (b - a) * usample k`.  A fixed seed fixes the whole stream.
* `math.sin` is transcendental; it is modelled as an abstract rational
  function `sinq` carried by the simulator.  Theorems that depend on the
  range of `sin` take the hypothesis `|sinq x| ≤ 1`.
* Python's `round(x, n)` (round half to even at `n` decimal places) is
  modelled exactly on rationals by `roundTo`.
-/

namespace LogisticsDashboard

/-! ## Data model: `domain/models.py` -/

/-- `LogisticsMetrics` (`domain/models.py`): frozen dataclass with the 13 KPI
fields plus a timestamp.  The Python field `operating_ratio` is carried here
by the field `operating_r8` (a direct rename, nothing else changes). -/
structure LogisticsMetrics where
  on_time_delivery_rate : ℚ
  avg_delivery_time : ℚ
  perfect_order_rate : ℚ
  orders_per_hour : ℚ
  order_accuracy : ℚ
  stockout_rate : ℚ
  pick_pack_cycle_time : ℚ
  truck_utilization : ℚ
  avg_dwell_time : ℚ
  cost_per_order : ℚ
  operating_r8 : ℚ
  hours_driven : ℚ
  incident_rate : ℚ
  timestamp : ℚ
deriving DecidableEq

/-! ## Rounding and clamping helpers -/

/-- `bounded(value, minimum=lo, maximum=hi)` from
`MetricsSimulator.generate_next`: `max(min(value, maximum), minimum)`. -/
def bounded (value minimum maximum : ℚ) : ℚ :=
  max (min value maximum) minimum

/-- Round a rational to the nearest integer, ties to even
(the rounding mode of Python's `round`). -/
def roundHalfEven (x : ℚ) : ℤ :=
  let f := ⌊x⌋
  if x - f < 1 / 2 then f
  else if 1 / 2 < x - f then f + 1
  else if f % 2 = 0 then f else f + 1

/-- Python's `round(x, n)`: round to `n` decimal places, ties to even. -/
def roundTo (n : ℕ) (x : ℚ) : ℚ :=
  (roundHalfEven (x * 10 ^ n) : ℚ) / 10 ^ n

/-! ## `infrastructure/simulation/metrics_simulator.py` -/

/-- State of `MetricsSimulator`.  `usample` models the seeded
`random.Random` as its stream of unit draws and `sinq` models `math.sin`;
`tick` is `self._tick` and `idx` counts how many unit draws have been
consumed so far (the PRNG cursor). -/
structure MetricsSimulator where
  usample : ℕ → ℚ
  sinq : ℚ → ℚ
  tick : ℕ
  idx : ℕ

/-- `random.Random.uniform(a, b)` for the `k`-th draw of the current call:
`a + (b - a) * u` with `u` the next unit sample. -/
def MetricsSimulator.uniform (s : MetricsSimulator) (k : ℕ) (a b : ℚ) : ℚ :=
  a + (b - a) * s.usample (s.idx + k)

/-- The local helper `jitter(amount)` of `generate_next`:
`uniform(-amount, amount)`. -/
def MetricsSimulator.jitter (s : MetricsSimulator) (k : ℕ) (amount : ℚ) : ℚ :=
  s.uniform k (-amount) amount

/-- `MetricsSimulator.initial_state`, parameterised by the wall-clock time
`now` standing for `datetime.utcnow()`. -/
def MetricsSimulator.initial_state (now : ℚ) : LogisticsMetrics where
  on_time_delivery_rate := 94.2
  avg_delivery_time := 31.5
  perfect_order_rate := 92.0
  orders_per_hour := 118.0
  order_accuracy := 97.1
  stockout_rate := 2.8
  pick_pack_cycle_time := 24.0
  truck_utilization := 76.0
  avg_dwell_time := 46.0
  cost_per_order := 8.7
  operating_r8 := 86.0
  hours_driven := 910.0
  incident_rate := 2.1
  timestamp := now

/-- `MetricsSimulator.generate_next(previous)`: increments the tick, computes
`wave = sin(tick / 6)`, then for each field clamps
`previous.field + jitter(J) + w * wave` into its `[min, max]` range and
rounds to the field's decimal precision; the timestamp advances by exactly
5 minutes.  Draw indices 0..12 follow the textual order of the 13
`jitter(...)` calls in the source.  Returns the updated simulator state and
the new snapshot. -/
def MetricsSimulator.generate_next (s : MetricsSimulator)
    (previous : LogisticsMetrics) : MetricsSimulator × LogisticsMetrics :=
  let wave := s.sinq ((s.tick + 1 : ℚ) / 6)
  (⟨s.usample, s.sinq, s.tick + 1, s.idx + 13⟩,
   { on_time_delivery_rate :=
       roundTo 1 (bounded (previous.on_time_delivery_rate + s.jitter 0 1.2 + wave * 0.6) 85 99)
     avg_delivery_time :=
       roundTo 1 (bounded (previous.avg_delivery_time + s.jitter 1 1.5 - wave * 0.8) 24 48)
     perfect_order_rate :=
       roundTo 1 (bounded (previous.perfect_order_rate + s.jitter 2 1) 85 98)
     orders_per_hour :=
       roundTo 1 (bounded (previous.orders_per_hour + s.jitter 3 12 + wave * 5) 70 180)
     order_accuracy :=
       roundTo 1 (bounded (previous.order_accuracy + s.jitter 4 0.8) 92 99.5)
     stockout_rate :=
       roundTo 2 (bounded (previous.stockout_rate + s.jitter 5 0.4 - wave * 0.2) 0.5 8)
     pick_pack_cycle_time :=
       roundTo 1 (bounded (previous.pick_pack_cycle_time + s.jitter 6 2 - wave * 0.5) 15 40)
     truck_utilization :=
       roundTo 1 (bounded (previous.truck_utilization + s.jitter 7 2.5 + wave * 1.2) 55 95)
     avg_dwell_time :=
       roundTo 1 (bounded (previous.avg_dwell_time + s.jitter 8 3 + wave) 30 80)
     cost_per_order :=
       roundTo 2 (bounded (previous.cost_per_order + s.jitter 9 0.6 - wave * 0.3) 6.5 12)
     operating_r8 :=
       roundTo 1 (bounded (previous.operating_r8 + s.jitter 10 1.5 - wave) 78 95)
     hours_driven :=
       roundTo 1 (bounded (previous.hours_driven + s.jitter 11 25 + wave * 8) 700 1100)
     incident_rate :=
       roundTo 2 (bounded (previous.incident_rate + s.jitter 12 0.4 + wave * 0.1) 0.5 5)
     timestamp := previous.timestamp + 5 * 60 })

/-- Iterated advance: `runChain s m n` is the simulator state and snapshot
after `n` successive `generate_next` calls starting from `(s, m)`. -/
def runChain (s : MetricsSimulator) (m : LogisticsMetrics) :
    ℕ → MetricsSimulator × LogisticsMetrics
  | 0 => (s, m)
  | n + 1 =>
      let p := runChain s m n
      MetricsSimulator.generate_next p.1 p.2

/-! ## `core/helpers/dict_helper.py` -/

/-- A Python value as it can occur in a message dict: a `datetime`
(rational seconds), a string, a number, a boolean or `None`. -/
inductive PyVal where
  | pydatetime : ℚ → PyVal
  | pystr : String → PyVal
  | pynum : ℚ → PyVal
  | pybool : Bool → PyVal
  | pynone : PyVal
deriving DecidableEq

/-- Model of `datetime.isoformat()`: an injective rendering of the
timestamp as a string (the exact text is a boundary concern; only that a
datetime becomes a string matters here). -/
def isoformat (t : ℚ) : String :=
  toString t.num ++ "." ++ toString t.den

/-- The inner `convert` of `serialize_message`: a `datetime` becomes its
`isoformat()` string, everything else is returned unchanged. -/
def convert : PyVal → PyVal
  | .pydatetime t => .pystr (isoformat t)
  | v => v

/-- `serialize_message(message)`: the dict comprehension
`{k: convert(v) for k, v in message.items()}`, on a dict modelled as an
association list in insertion order. -/
def serialize_message (message : List (String × PyVal)) : List (String × PyVal) :=
  message.map (fun kv => (kv.1, convert kv.2))

/-! ## `application/services/metrics_service.py` -/

/-- State of `MetricsService`: the owned simulator, the single current
snapshot and the update interval.  The `asyncio.Lock` of the source makes
each method body atomic (the critical sections contain no `await`); the
methods are therefore embedded as atomic state transformers. -/
structure MetricsService where
  sim : MetricsSimulator
  current : LogisticsMetrics
  interval : ℚ

/-- `MetricsService.__init__(simulator, update_interval_seconds=3.0)`:
stores the simulator and initialises the current snapshot from
`simulator.initial_state()` (`now` stands for `datetime.utcnow()`). -/
def MetricsService.make (sim : MetricsSimulator) (now : ℚ) : MetricsService :=
  ⟨sim, MetricsSimulator.initial_state now, 3.0⟩

/-- `MetricsService.get_current_metrics`: returns the current snapshot and
leaves the service state untouched. -/
def MetricsService.get_current_metrics (s : MetricsService) :
    MetricsService × LogisticsMetrics :=
  (s, s.current)

/-- `MetricsService.generate_next_metrics`: atomically replaces the current
snapshot with `simulator.generate_next(current)` and returns it. -/
def MetricsService.generate_next_metrics (s : MetricsService) :
    MetricsService × LogisticsMetrics :=
  let r := MetricsSimulator.generate_next s.sim s.current
  ({ s with sim := r.1, current := r.2 }, r.2)

/-- The service state after `n` sequential `generate_next_metrics` calls. -/
def svcIter (svc : MetricsService) : ℕ → MetricsService
  | 0 => svc
  | n + 1 => (MetricsService.generate_next_metrics (svcIter svc n)).1

/-- The list of the first `n` snapshots returned by sequential
`generate_next_metrics` calls: the valid chain of length `n`. -/
def chainOutputs (svc : MetricsService) (n : ℕ) : List LogisticsMetrics :=
  (List.range n).map (fun k => (svcIter svc (k + 1)).current)

/-! ## Interleaving model for concurrent `generate_next_metrics` callers

Each caller is a task that first acquires the service's `asyncio.Lock`
(possible only while no other task holds it) and then, in its next step,
runs the critical section — which contains no `await` in the source and is
therefore a single atomic step — and releases the lock.  A schedule is the
list of task indices chosen by the event loop. -/

/-- Phase of one caller task of `generate_next_metrics`. -/
inductive TaskPhase where
  | waiting
  | holding
  | done : LogisticsMetrics → TaskPhase
deriving DecidableEq

/-- The result of a completed task, if it is completed. -/
def doneResult : TaskPhase → Option LogisticsMetrics
  | .done r => some r
  | _ => none

/-- Whether a task currently holds the lock. -/
def isHolding : TaskPhase → Bool
  | .holding => true
  | _ => false

/-- Whether a task has completed. -/
def isDone : TaskPhase → Bool
  | .done _ => true
  | _ => false

/-- Global state of a concurrent run: the shared service, the phase of
every caller task, and the log of snapshots in completion order. -/
structure SysState where
  svc : MetricsService
  tasks : List TaskPhase
  log : List LogisticsMetrics

/-- One scheduler step giving task `i` a turn: a waiting task acquires the
free lock; a lock-holding task runs the critical section of
`generate_next_metrics` atomically, records its result and releases the
lock; otherwise nothing happens. -/
def stepTask (st : SysState) (i : ℕ) : SysState :=
  match st.tasks[i]? with
  | some .waiting =>
      if st.tasks.all (fun t => !(isHolding t)) then
        { st with tasks := st.tasks.set i .holding }
      else st
  | some .holding =>
      let r := MetricsService.generate_next_metrics st.svc
      { svc := r.1, tasks := st.tasks.set i (.done r.2), log := st.log ++ [r.2] }
  | _ => st

/-- Run a schedule (a list of task indices) from a state. -/
def runSched (st : SysState) : List ℕ → SysState
  | [] => st
  | i :: rest => runSched (stepTask st i) rest

/-- Initial state for `n` concurrent callers over service `svc`. -/
def initSys (svc : MetricsService) (n : ℕ) : SysState :=
  ⟨svc, List.replicate n .waiting, []⟩

/-- Run invariant for the concurrent-caller model: the task vector keeps
its size, the shared service is the sequential iterate indexed by the
number of completions, the completion log is exactly the sequential chain
of that length, and the completed tasks' results are a permutation of the
log. -/
def SysInv (svc0 : MetricsService) (n : ℕ) (st : SysState) : Prop :=
  st.tasks.length = n ∧
  st.svc = svcIter svc0 st.log.length ∧
  st.log = chainOutputs svc0 st.log.length ∧
  List.Perm (st.tasks.filterMap doneResult) st.log

/-! ## `infrastructure/websocket/manager.py` — `ConnectionManager` -/

/-- A websocket sink: an identity plus its send behaviour.  `send_fails`
models a sink whose `send_json` raises `WebSocketDisconnect` or
`RuntimeError`. -/
structure Sink where
  sid : ℕ
  send_fails : Bool
deriving DecidableEq

/-- State of `ConnectionManager`: the list of active connections, in
connection order. -/
structure ConnectionManager where
  connections : List Sink
deriving DecidableEq

/-- The `connection_count` property: `len(self._connections)`. -/
def ConnectionManager.connection_count (m : ConnectionManager) : ℕ :=
  m.connections.length

/-- `ConnectionManager.connect`: accept then append. -/
def ConnectionManager.connect (m : ConnectionManager) (w : Sink) :
    ConnectionManager :=
  ⟨m.connections ++ [w]⟩

/-- `ConnectionManager.disconnect`: remove the websocket if present. -/
def ConnectionManager.disconnect (m : ConnectionManager) (w : Sink) :
    ConnectionManager :=
  if w ∈ m.connections then ⟨m.connections.erase w⟩ else m

/-- The send loop of `broadcast`: iterate over a copy of the connection
list, attempt `send_json` on each, and split the list into the sinks that
received the payload and the stale ones that raised, both in iteration
order. -/
def sendPass : List Sink → List Sink × List Sink
  | [] => ([], [])
  | c :: rest =>
      let p := sendPass rest
      if c.send_fails then (p.1, c :: p.2) else (c :: p.1, p.2)

/-- `ConnectionManager.broadcast(message)`: serialize the message once,
deliver it to every connection that does not raise, then disconnect the
stale connections.  Returns the new manager state together with the
delivery log (which sink received which payload). -/
def ConnectionManager.broadcast (m : ConnectionManager)
    (message : List (String × PyVal)) :
    ConnectionManager × List (Sink × List (String × PyVal)) :=
  let payload := serialize_message message
  let p := sendPass m.connections
  (p.2.foldl ConnectionManager.disconnect m, p.1.map (fun c => (c, payload)))

/-! ## `infrastructure/websocket/manager.py` — `MetricsBroadcaster` -/

/-- Events acting on a `MetricsBroadcaster`: a `start()` call, a `stop()`
call, or the background task terminating on its own (for instance on an
unhandled exception in the update coroutine).  `start` and `stop` run
under `self._lock`, and check-then-create in `start` has no `await`
between the check and `create_task`, so each event is one atomic step. -/
inductive BEvent where
  | bstart
  | bstop
  | loopEnds
deriving DecidableEq

/-- State of `MetricsBroadcaster`: `task` is `self._task` (`some d` holds a
task handle whose `done()` flag is `d`); `live` is a ghost counter of the
loop tasks created and not yet terminated. -/
structure BroadcasterState where
  task : Option Bool
  live : ℕ
deriving DecidableEq

/-- Freshly constructed broadcaster: no task, no live loop. -/
def initB : BroadcasterState := ⟨none, 0⟩

/-- One atomic event on the broadcaster.  `start` creates a task only if
`self._task is None or self._task.done()`; `stop` cancels and awaits the
task (so its loop is no longer live) and clears the handle; `loopEnds`
marks a running task as done. -/
def stepB (s : BroadcasterState) : BEvent → BroadcasterState
  | .bstart =>
      match s.task with
      | some false => s
      | _ => ⟨some false, s.live + 1⟩
  | .bstop =>
      match s.task with
      | none => s
      | some d => ⟨none, if d then s.live else s.live - 1⟩
  | .loopEnds =>
      match s.task with
      | some false => ⟨some true, s.live - 1⟩
      | _ => s

/-- Run a trace of events from a state. -/
def runBFrom (s : BroadcasterState) : List BEvent → BroadcasterState
  | [] => s
  | e :: tr => runBFrom (stepB s e) tr

/-- The broadcaster state reached by a trace from the initial state; every
reachable state is of this form. -/
def runB (tr : List BEvent) : BroadcasterState :=
  runBFrom initB tr

/-! ## `main.py` — the websocket handler's exit path -/

/-- The application state the `metrics_ws` handler touches on exit: the
connection registry and the broadcaster. -/
structure AppState where
  manager : ConnectionManager
  caster : BroadcasterState

/-- The exit path of `metrics_ws` (`except WebSocketDisconnect` plus
`finally`): on a `WebSocketDisconnect` the socket is removed from the
registry; then, if the registry count is zero, `broadcaster.stop()` is
awaited. -/
def handlerFinish (st : AppState) (w : Sink) (got_ws_disconnect : Bool) :
    AppState :=
  let m := if got_ws_disconnect then st.manager.disconnect w else st.manager
  if m.connection_count = 0 then ⟨m, stepB st.caster .bstop⟩
  else ⟨m, st.caster⟩

/-! ## The single-step drift claim for `on_time_delivery_rate`, as stated

For the counterexample below: the claim quantified over every in-range
previous snapshot, assuming only that the unit draws lie in `[0, 1]` and
that the wave term lies in `[-1, 1]`. -/

/-- The drift claim as stated: from any previous snapshot whose
`on_time_delivery_rate` is in `[85, 99]`, one `generate_next` call moves
that field by at most `1.8`, rounding included. -/
def singleStepDriftClaim : Prop :=
  ∀ (s : MetricsSimulator) (prev : LogisticsMetrics),
    (∀ k, 0 ≤ s.usample k ∧ s.usample k ≤ 1) →
    (∀ x, |s.sinq x| ≤ 1) →
    85 ≤ prev.on_time_delivery_rate →
    prev.on_time_delivery_rate ≤ 99 →
    |(MetricsSimulator.generate_next s prev).2.on_time_delivery_rate -
      prev.on_time_delivery_rate| ≤ 1.8

/-- Simulator for the drift counterexample: every unit draw is
`2399/2400` (so the `on_time` jitter is `1.199`, inside `(-1.2, 1.2)`) and
the wave term is `0.999` (inside the range of `sin`). -/
def cxSim : MetricsSimulator :=
  ⟨fun _ => 2399 / 2400, fun _ => 999 / 1000, 0, 0⟩

/-- Previous snapshot for the drift counterexample: the baseline with
`on_time_delivery_rate = 90.06`, a value off the one-decimal grid. -/
def cxPrev : LogisticsMetrics :=
  { MetricsSimulator.initial_state 0 with on_time_delivery_rate := 90.06 }

/-- Deterministic simulator used to instantiate witnesses: unit draws all
`1/2` (zero jitter) and wave term `0`. -/
def wSim : MetricsSimulator :=
  ⟨fun _ => 1 / 2, fun _ => 0, 0, 0⟩

/-- Concrete message used by witnesses: one datetime entry, one number. -/
def wMsg : List (String × PyVal) :=
  [("timestamp", PyVal.pydatetime 300), ("rate", PyVal.pynum 94.2)]

/-- Concrete registry for the C2 witness: three sinks, the middle one
always fails on send. -/
def wManager : ConnectionManager :=
  ⟨[⟨1, false⟩, ⟨2, true⟩, ⟨3, false⟩]⟩

/-- The broadcaster invariant: a loop task is live exactly when the stored
handle is a not-yet-done task.  In particular at most one loop is ever
live. -/
def BInv (s : BroadcasterState) : Prop :=
  s.live = if s.task = some false then 1 else 0

/-- Concrete application state for the C8 witness: one registered sink and
a Running broadcaster. -/
def wApp : AppState :=
  ⟨⟨[⟨1, false⟩]⟩, ⟨some false, 1⟩⟩

/-- Service over `wSim` used to instantiate witnesses. -/
def wSvc : MetricsService :=
  MetricsService.make wSim 0

/-! ## Lemmas about rounding and clamping -/

theorem le_roundHalfEven (m : ℤ) (x : ℚ) (h : (m : ℚ) ≤ x) :
    m ≤ roundHalfEven x := by
  have hf : m ≤ ⌊x⌋ := Int.le_floor.mpr h
  unfold roundHalfEven
  dsimp only
  split_ifs <;> omega

theorem roundHalfEven_le (M : ℤ) (x : ℚ) (h : x ≤ (M : ℚ)) :
    roundHalfEven x ≤ M := by
  have hf : ⌊x⌋ ≤ M := by
    have h1 := Int.floor_mono h
    simpa using h1
  have key : ¬(x - ⌊x⌋ < 1 / 2) → ⌊x⌋ < M := by
    intro h1
    push_neg at h1
    have h4 : (⌊x⌋ : ℚ) + 1 / 2 ≤ x := by linarith
    have h5 : (⌊x⌋ : ℚ) < (M : ℚ) := by linarith
    exact_mod_cast h5
  unfold roundHalfEven
  dsimp only
  split_ifs with h1 h2 h3
  · exact hf
  · have := key h1
    omega
  · exact hf
  · have := key h1
    omega

theorem roundTo_mem (n : ℕ) (a b : ℤ) (x : ℚ)
    (h1 : (a : ℚ) ≤ x * 10 ^ n) (h2 : x * 10 ^ n ≤ (b : ℚ)) :
    (a : ℚ) / 10 ^ n ≤ roundTo n x ∧ roundTo n x ≤ (b : ℚ) / 10 ^ n := by
  have hl := le_roundHalfEven a _ h1
  have hr := roundHalfEven_le b _ h2
  have hl' : (a : ℚ) ≤ (roundHalfEven (x * 10 ^ n) : ℚ) := by exact_mod_cast hl
  have hr' : (roundHalfEven (x * 10 ^ n) : ℚ) ≤ (b : ℚ) := by exact_mod_cast hr
  unfold roundTo
  constructor
  · gcongr
  · gcongr

/-- Clamping into `[lo, hi]` and then rounding at a precision on whose grid
`lo` and `hi` both lie keeps the value inside `[lo, hi]`. -/
theorem roundTo_bounded_mem (n : ℕ) (a b : ℤ) (v lo hi : ℚ)
    (hlo : lo * 10 ^ n = (a : ℚ)) (hhi : hi * 10 ^ n = (b : ℚ))
    (hab : lo ≤ hi) :
    lo ≤ roundTo n (bounded v lo hi) ∧ roundTo n (bounded v lo hi) ≤ hi := by
  have hpos : (0 : ℚ) < 10 ^ n := by positivity
  have hmem : lo ≤ bounded v lo hi ∧ bounded v lo hi ≤ hi := by
    unfold bounded
    exact ⟨le_max_right _ _, max_le (min_le_right _ _) hab⟩
  have h1 : (a : ℚ) ≤ bounded v lo hi * 10 ^ n := by
    rw [← hlo]
    exact mul_le_mul_of_nonneg_right hmem.1 hpos.le
  have h2 : bounded v lo hi * 10 ^ n ≤ (b : ℚ) := by
    rw [← hhi]
    exact mul_le_mul_of_nonneg_right hmem.2 hpos.le
  have hres := roundTo_mem n a b _ h1 h2
  have elo : lo = (a : ℚ) / 10 ^ n := (eq_div_iff hpos.ne').mpr hlo
  have ehi : hi = (b : ℚ) / 10 ^ n := (eq_div_iff hpos.ne').mpr hhi
  exact ⟨elo.trans_le hres.1, hres.2.trans_eq ehi.symm⟩

/-! ## Claim theorems -/

/-- C1: every snapshot returned by `MetricsSimulator.generate_next` — from
any previous snapshot, any seed (`usample`/`sinq` arbitrary), any tick —
has all 13 KPI fields inside their field-specific `[min, max]` ranges; the
clamp is applied after adding jitter and wave term and before the
fixed-precision rounding (which is literally the shape of the embedded
definition), and the bounds survive the rounding. -/
theorem generate_next_fields_within_bounds (s : MetricsSimulator)
    (previous : LogisticsMetrics) :
    (85 ≤ (MetricsSimulator.generate_next s previous).2.on_time_delivery_rate ∧
      (MetricsSimulator.generate_next s previous).2.on_time_delivery_rate ≤ 99) ∧
    (24 ≤ (MetricsSimulator.generate_next s previous).2.avg_delivery_time ∧
      (MetricsSimulator.generate_next s previous).2.avg_delivery_time ≤ 48) ∧
    (85 ≤ (MetricsSimulator.generate_next s previous).2.perfect_order_rate ∧
      (MetricsSimulator.generate_next s previous).2.perfect_order_rate ≤ 98) ∧
    (70 ≤ (MetricsSimulator.generate_next s previous).2.orders_per_hour ∧
      (MetricsSimulator.generate_next s previous).2.orders_per_hour ≤ 180) ∧
    (92 ≤ (MetricsSimulator.generate_next s previous).2.order_accuracy ∧
      (MetricsSimulator.generate_next s previous).2.order_accuracy ≤ 99.5) ∧
    (0.5 ≤ (MetricsSimulator.generate_next s previous).2.stockout_rate ∧
      (MetricsSimulator.generate_next s previous).2.stockout_rate ≤ 8) ∧
    (15 ≤ (MetricsSimulator.generate_next s previous).2.pick_pack_cycle_time ∧
      (MetricsSimulator.generate_next s previous).2.pick_pack_cycle_time ≤ 40) ∧
    (55 ≤ (MetricsSimulator.generate_next s previous).2.truck_utilization ∧
      (MetricsSimulator.generate_next s previous).2.truck_utilization ≤ 95) ∧
    (30 ≤ (MetricsSimulator.generate_next s previous).2.avg_dwell_time ∧
      (MetricsSimulator.generate_next s previous).2.avg_dwell_time ≤ 80) ∧
    (6.5 ≤ (MetricsSimulator.generate_next s previous).2.cost_per_order ∧
      (MetricsSimulator.generate_next s previous).2.cost_per_order ≤ 12) ∧
    (78 ≤ (MetricsSimulator.generate_next s previous).2.operating_r8 ∧
      (MetricsSimulator.generate_next s previous).2.operating_r8 ≤ 95) ∧
    (700 ≤ (MetricsSimulator.generate_next s previous).2.hours_driven ∧
      (MetricsSimulator.generate_next s previous).2.hours_driven ≤ 1100) ∧
    (0.5 ≤ (MetricsSimulator.generate_next s previous).2.incident_rate ∧
      (MetricsSimulator.generate_next s previous).2.incident_rate ≤ 5) := by
  dsimp only [MetricsSimulator.generate_next]
  exact
    ⟨roundTo_bounded_mem 1 850 990 _ 85 99 (by norm_num) (by norm_num) (by norm_num),
     roundTo_bounded_mem 1 240 480 _ 24 48 (by norm_num) (by norm_num) (by norm_num),
     roundTo_bounded_mem 1 850 980 _ 85 98 (by norm_num) (by norm_num) (by norm_num),
     roundTo_bounded_mem 1 700 1800 _ 70 180 (by norm_num) (by norm_num) (by norm_num),
     roundTo_bounded_mem 1 920 995 _ 92 99.5 (by norm_num) (by norm_num) (by norm_num),
     roundTo_bounded_mem 2 50 800 _ 0.5 8 (by norm_num) (by norm_num) (by norm_num),
     roundTo_bounded_mem 1 150 400 _ 15 40 (by norm_num) (by norm_num) (by norm_num),
     roundTo_bounded_mem 1 550 950 _ 55 95 (by norm_num) (by norm_num) (by norm_num),
     roundTo_bounded_mem 1 300 800 _ 30 80 (by norm_num) (by norm_num) (by norm_num),
     roundTo_bounded_mem 2 650 1200 _ 6.5 12 (by norm_num) (by norm_num) (by norm_num),
     roundTo_bounded_mem 1 780 950 _ 78 95 (by norm_num) (by norm_num) (by norm_num),
     roundTo_bounded_mem 1 7000 11000 _ 700 1100 (by norm_num) (by norm_num) (by norm_num),
     roundTo_bounded_mem 2 50 500 _ 0.5 5 (by norm_num) (by norm_num) (by norm_num)⟩

/-! ## Timestamp lemmas -/

theorem generate_next_timestamp (s : MetricsSimulator) (prev : LogisticsMetrics) :
    (MetricsSimulator.generate_next s prev).2.timestamp = prev.timestamp + 5 * 60 := rfl

theorem runChain_timestamp (s : MetricsSimulator) (m : LogisticsMetrics) (n : ℕ) :
    (runChain s m n).2.timestamp = m.timestamp + 300 * n := by
  induction n with
  | zero => simp [runChain]
  | succ k ih =>
      show (MetricsSimulator.generate_next (runChain s m k).1 (runChain s m k).2).2.timestamp = _
      rw [generate_next_timestamp, ih]
      push_cast
      ring

/-- C5: one `generate_next` call advances the timestamp by exactly 5 minutes
(300 seconds) from `previous.timestamp`, and along any iterated sequence of
advances the timestamps are strictly increasing. -/
theorem generate_next_timestamp_fixed_step (s : MetricsSimulator)
    (m : LogisticsMetrics) :
    (∀ (s' : MetricsSimulator) (prev : LogisticsMetrics),
      (MetricsSimulator.generate_next s' prev).2.timestamp = prev.timestamp + 5 * 60) ∧
    (∀ i j : ℕ, i < j →
      (runChain s m i).2.timestamp < (runChain s m j).2.timestamp) := by
  refine ⟨fun s' prev => rfl, fun i j hij => ?_⟩
  rw [runChain_timestamp, runChain_timestamp]
  have h : (i : ℚ) < (j : ℚ) := by exact_mod_cast hij
  linarith

/-- Witness for C5 at a concrete input: `0 < 1` and the timestamp strictly
increases from tick 0 to tick 1 of a concrete run. -/
theorem generate_next_timestamp_fixed_step_witness :
    (runChain wSim (MetricsSimulator.initial_state 0) 0).2.timestamp <
      (runChain wSim (MetricsSimulator.initial_state 0) 1).2.timestamp :=
  (generate_next_timestamp_fixed_step wSim (MetricsSimulator.initial_state 0)).2
    0 1 (by norm_num)

/-- C6: `generate_next` is a function of the seed-determined streams, the
tick count, the PRNG cursor and the previous snapshot only: two simulators
constructed with the same seed (hence the same `usample` and `sinq`
streams) and in the same position produce identical snapshot sequences
from the same initial snapshot. -/
theorem generate_next_deterministic (s₁ s₂ : MetricsSimulator)
    (m : LogisticsMetrics) (n : ℕ)
    (hu : s₁.usample = s₂.usample) (hs : s₁.sinq = s₂.sinq)
    (ht : s₁.tick = s₂.tick) (hi : s₁.idx = s₂.idx) :
    runChain s₁ m n = runChain s₂ m n := by
  have h : s₁ = s₂ := by
    cases s₁
    cases s₂
    simp_all
  rw [h]

/-- Witness for C6: two copies of the concrete seeded simulator produce the
same 3-step sequence. -/
theorem generate_next_deterministic_witness :
    runChain wSim (MetricsSimulator.initial_state 0) 3 =
      runChain wSim (MetricsSimulator.initial_state 0) 3 :=
  generate_next_deterministic wSim wSim (MetricsSimulator.initial_state 0) 3
    rfl rfl rfl rfl

/-! ## `serialize_message` lemmas -/

theorem convert_convert (v : PyVal) : convert (convert v) = convert v := by
  cases v <;> rfl

theorem convert_eq_self (v : PyVal) (h : ∀ d : ℚ, v ≠ PyVal.pydatetime d) :
    convert v = v := by
  cases v with
  | pydatetime t => exact absurd rfl (h t)
  | _ => rfl

/-- C9: `serialize_message` preserves the keys (in order), maps every
`datetime` value to its `isoformat` string, leaves every non-`datetime`
value unchanged, and is idempotent. -/
theorem serialize_message_shape (m : List (String × PyVal)) :
    ((serialize_message m).map Prod.fst = m.map Prod.fst) ∧
    (serialize_message (serialize_message m) = serialize_message m) ∧
    (∀ (k : String) (d : ℚ), (k, PyVal.pydatetime d) ∈ m →
      (k, PyVal.pystr (isoformat d)) ∈ serialize_message m) ∧
    (∀ (k : String) (v : PyVal), (k, v) ∈ m →
      (∀ d : ℚ, v ≠ PyVal.pydatetime d) → (k, v) ∈ serialize_message m) := by
  refine ⟨?_, ?_, ?_, ?_⟩
  · rw [serialize_message, List.map_map]
    rfl
  · simp [serialize_message, List.map_map, Function.comp, convert_convert]
  · intro k d hmem
    exact List.mem_map_of_mem _ hmem
  · intro k v hmem hne
    have h2 : (k, convert v) ∈ serialize_message m :=
      List.mem_map_of_mem (fun kv => (kv.1, convert kv.2)) hmem
    rwa [convert_eq_self v hne] at h2


/-- Witness for C9 at a concrete dict: the datetime entry becomes its
isoformat string, the numeric entry survives unchanged, and a second
serialization changes nothing. -/
theorem serialize_message_shape_witness :
    (("timestamp", PyVal.pystr (isoformat 300)) ∈ serialize_message wMsg) ∧
    (("rate", PyVal.pynum 94.2) ∈ serialize_message wMsg) ∧
    (serialize_message (serialize_message wMsg) = serialize_message wMsg) :=
  ⟨(serialize_message_shape wMsg).2.2.1 "timestamp" 300 (by simp [wMsg]),
   (serialize_message_shape wMsg).2.2.2 "rate" (PyVal.pynum 94.2)
     (by simp [wMsg]) (by intro d h; cases h),
   (serialize_message_shape wMsg).2.1⟩

/-- C10: `get_current_metrics` is a pure read: the service state after the
call — the stored snapshot, the simulator tick and the PRNG cursor and
stream — is exactly the state before the call, and the returned value is
exactly the stored current snapshot. -/
theorem get_current_metrics_pure (s : MetricsService) :
    ((MetricsService.get_current_metrics s).1 = s) ∧
    ((MetricsService.get_current_metrics s).1.current = s.current) ∧
    ((MetricsService.get_current_metrics s).1.sim.tick = s.sim.tick) ∧
    ((MetricsService.get_current_metrics s).1.sim.idx = s.sim.idx) ∧
    ((MetricsService.get_current_metrics s).1.sim.usample = s.sim.usample) ∧
    ((MetricsService.get_current_metrics s).2 = s.current) :=
  ⟨rfl, rfl, rfl, rfl, rfl, rfl⟩

/-! ## `ConnectionManager.broadcast` lemmas -/

theorem sendPass_eq (l : List Sink) :
    sendPass l =
      (l.filter (fun c => !c.send_fails), l.filter (fun c => c.send_fails)) := by
  induction l with
  | nil => rfl
  | cons c rest ih =>
      by_cases h : c.send_fails <;>
        simp [sendPass, ih, h, List.filter_cons]

theorem disconnect_connections (m : ConnectionManager) (w : Sink) :
    (m.disconnect w).connections = m.connections.erase w := by
  unfold ConnectionManager.disconnect
  split_ifs with h
  · rfl
  · exact (List.erase_of_not_mem h).symm

theorem foldl_disconnect_connections (s : List Sink) (m : ConnectionManager) :
    (s.foldl ConnectionManager.disconnect m).connections =
      s.foldl List.erase m.connections := by
  induction s generalizing m with
  | nil => rfl
  | cons x s' ih =>
      simp only [List.foldl_cons]
      rw [ih, disconnect_connections]

theorem foldl_erase_cons (t s : List Sink) (c : Sink) (h : ∀ x ∈ s, x ≠ c) :
    s.foldl List.erase (c :: t) = c :: s.foldl List.erase t := by
  induction s generalizing t with
  | nil => rfl
  | cons x s' ih =>
      have hx : x ≠ c := h x (by simp)
      have hrec : ∀ y ∈ s', y ≠ c := fun y hy => h y (by simp [hy])
      simp only [List.foldl_cons]
      rw [List.erase_cons_tail (fun e => (Ne.symm hx) (by simpa using e)),
        ih (t.erase x) hrec]

theorem foldl_erase_filter (l : List Sink) (f : Sink → Bool) (hl : l.Nodup) :
    (l.filter f).foldl List.erase l = l.filter (fun c => !(f c)) := by
  induction l with
  | nil => rfl
  | cons c rest ih =>
      have hc : c ∉ rest := (List.nodup_cons.mp hl).1
      have hnd : rest.Nodup := (List.nodup_cons.mp hl).2
      by_cases h : f c
      · have e1 : List.filter f (c :: rest) = c :: List.filter f rest := by
          simp [List.filter_cons, h]
        have e2 : List.filter (fun x => !(f x)) (c :: rest) =
            List.filter (fun x => !(f x)) rest := by
          simp [List.filter_cons, h]
        rw [e1, e2, List.foldl_cons, List.erase_cons_head, ih hnd]
      · have e1 : List.filter f (c :: rest) = List.filter f rest := by
          simp [List.filter_cons, h]
        have e2 : List.filter (fun x => !(f x)) (c :: rest) =
            c :: List.filter (fun x => !(f x)) rest := by
          simp [List.filter_cons, h]
        have hne : ∀ x ∈ rest.filter f, x ≠ c := by
          intro x hx hxc
          exact hc (hxc ▸ List.mem_of_mem_filter hx)
        rw [e1, e2, foldl_erase_cons rest (rest.filter f) c hne, ih hnd]

/-- C2: over a duplicate-free registry, `broadcast` delivers the serialized
payload to every non-failing registered sink (in registration order),
removes exactly the failing sinks, and the connection count afterwards is
the old count minus the number of failing sinks. -/
theorem broadcast_isolates_failures (m : ConnectionManager)
    (msg : List (String × PyVal)) (hnd : m.connections.Nodup) :
    ((m.broadcast msg).2 =
      (m.connections.filter (fun c => !c.send_fails)).map
        (fun c => (c, serialize_message msg))) ∧
    ((m.broadcast msg).1.connections =
      m.connections.filter (fun c => !c.send_fails)) ∧
    ((m.broadcast msg).1.connection_count =
      m.connection_count - (m.connections.filter (fun c => c.send_fails)).length) := by
  have hconn : (m.broadcast msg).1.connections =
      m.connections.filter (fun c => !c.send_fails) := by
    show ((sendPass m.connections).2.foldl ConnectionManager.disconnect m).connections = _
    rw [sendPass_eq, foldl_disconnect_connections, foldl_erase_filter _ _ hnd]
  refine ⟨?_, hconn, ?_⟩
  · show ((sendPass m.connections).1.map fun c => (c, serialize_message msg)) = _
    rw [sendPass_eq]
  · show (m.broadcast msg).1.connections.length = _
    rw [hconn]
    have := List.length_eq_length_filter_add (l := m.connections)
      (fun c => c.send_fails)
    have hb : m.connections.filter (fun c => !c.send_fails) =
        m.connections.filter (fun c => !(c.send_fails)) := rfl
    unfold ConnectionManager.connection_count
    omega


/-- Witness for C2 at the concrete 3-subscriber registry: the two healthy
sinks receive the payload, exactly the failing sink is removed, and the
count drops from 3 to 2. -/
theorem broadcast_isolates_failures_witness :
    (wManager.connection_count = 3) ∧
    ((wManager.broadcast wMsg).2 =
      [(⟨1, false⟩, serialize_message wMsg), (⟨3, false⟩, serialize_message wMsg)]) ∧
    ((wManager.broadcast wMsg).1.connections = [⟨1, false⟩, ⟨3, false⟩]) ∧
    ((wManager.broadcast wMsg).1.connection_count = 2) := by
  have h := broadcast_isolates_failures wManager wMsg (by decide)
  refine ⟨rfl, ?_, ?_, ?_⟩
  · rw [h.1]
    rfl
  · rw [h.2.1]
    rfl
  · rw [h.2.2]
    rfl

/-! ## `MetricsBroadcaster` loop-count invariant -/


theorem stepB_inv (s : BroadcasterState) (e : BEvent) (h : BInv s) :
    BInv (stepB s e) := by
  obtain ⟨task, live⟩ := s
  unfold BInv at h ⊢
  cases e <;> rcases task with _ | (_ | _) <;>
    simp_all [stepB]

theorem runBFrom_inv (tr : List BEvent) (s : BroadcasterState) (h : BInv s) :
    BInv (runBFrom s tr) := by
  induction tr generalizing s with
  | nil => exact h
  | cons e tr' ih => exact ih (stepB s e) (stepB_inv s e h)

/-- C3: in every reachable broadcaster state (any trace of `start()`,
`stop()` and spontaneous task-termination events from the freshly
constructed state) at most one background loop task is live, and a
`start()` call while the loop is Running (`task = some false`) leaves the
state unchanged — no second concurrent cycle is created. -/
theorem broadcaster_at_most_one_loop (tr : List BEvent) :
    ((runB tr).live ≤ 1) ∧
    ((runB tr).task = some false → stepB (runB tr) BEvent.bstart = runB tr) := by
  have hinv : BInv (runB tr) := runBFrom_inv tr initB (by rfl)
  constructor
  · unfold BInv at hinv
    split_ifs at hinv <;> omega
  · intro hrun
    unfold stepB
    rw [hrun]

/-- Witness for C3: after one `start()` the loop is Running; the invariant
bounds the live count by one and a second `start()` is a no-op. -/
theorem broadcaster_at_most_one_loop_witness :
    ((runB [BEvent.bstart]).live ≤ 1) ∧
    (stepB (runB [BEvent.bstart]) BEvent.bstart = runB [BEvent.bstart]) :=
  ⟨(broadcaster_at_most_one_loop [BEvent.bstart]).1,
   (broadcaster_at_most_one_loop [BEvent.bstart]).2 rfl⟩

/-! ## `main.py` handler exit path -/

theorem stepB_bstop_task (s : BroadcasterState) :
    (stepB s BEvent.bstop).task = none := by
  rcases s with ⟨_ | d, l⟩ <;> rfl

/-- C8: if a disconnect handled by `metrics_ws` takes the registry from one
subscriber to zero, the handler's `finally` block invokes
`broadcaster.stop()` before completing, so after the handler for the last
connection has finished the loop is not Running (`task = none`); more
generally, whenever the handler finishes with an empty registry the
broadcaster task handle is cleared. -/
theorem handler_stops_loop_on_last_disconnect (st : AppState) (w : Sink)
    (h1 : st.manager.connection_count = 1)
    (h2 : (st.manager.disconnect w).connection_count = 0) :
    ((handlerFinish st w true).manager.connection_count = 0) ∧
    ((handlerFinish st w true).caster.task = none) ∧
    (∀ b : Bool, (handlerFinish st w b).manager.connection_count = 0 →
      (handlerFinish st w b).caster.task = none) := by
  refine ⟨?_, ?_, ?_⟩
  · simp only [handlerFinish, if_true]
    rw [if_pos h2]
    exact h2
  · simp only [handlerFinish, if_true]
    rw [if_pos h2]
    exact stepB_bstop_task st.caster
  · intro b hb
    simp only [handlerFinish] at hb ⊢
    by_cases hc :
        (if b = true then st.manager.disconnect w else st.manager).connection_count = 0
    · rw [if_pos hc]
      exact stepB_bstop_task st.caster
    · rw [if_neg hc] at hb
      exact absurd hb hc


/-- Witness for C8: the handler for the only subscriber disconnects it,
the registry count reaches zero and the broadcaster is stopped. -/
theorem handler_stops_loop_witness :
    ((handlerFinish wApp ⟨1, false⟩ true).manager.connection_count = 0) ∧
    ((handlerFinish wApp ⟨1, false⟩ true).caster.task = none) :=
  ⟨(handler_stops_loop_on_last_disconnect wApp ⟨1, false⟩ rfl (by decide)).1,
   (handler_stops_loop_on_last_disconnect wApp ⟨1, false⟩ rfl (by decide)).2.1⟩

/-! ## Single-step drift of `on_time_delivery_rate` -/

theorem jitter_abs (s : MetricsSimulator) (k : ℕ) (amount : ℚ)
    (hu : ∀ j, 0 ≤ s.usample j ∧ s.usample j ≤ 1) (ha : 0 ≤ amount) :
    -amount ≤ s.jitter k amount ∧ s.jitter k amount ≤ amount := by
  unfold MetricsSimulator.jitter MetricsSimulator.uniform
  obtain ⟨h0, h1⟩ := hu (s.idx + k)
  constructor <;> nlinarith

/-- Clamp-then-round drift bound for the `on_time` update: if the previous
value `p` lies on the one-decimal grid (`p * 10 = g`) and in `[85, 99]`,
the jitter lies in `[-1.2, 1.2]` and the wave in `[-1, 1]`, the updated
value stays in `[85, 99]` and within `1.8` of `p`. -/
theorem roundTo_bounded_drift (p j w : ℚ) (g : ℤ) (hg : p * 10 = (g : ℚ))
    (hp1 : 85 ≤ p) (hp2 : p ≤ 99)
    (hj : -1.2 ≤ j ∧ j ≤ 1.2) (hw : -1 ≤ w ∧ w ≤ 1) :
    (85 ≤ roundTo 1 (bounded (p + j + w * 0.6) 85 99)) ∧
    (roundTo 1 (bounded (p + j + w * 0.6) 85 99) ≤ 99) ∧
    (|roundTo 1 (bounded (p + j + w * 0.6) 85 99) - p| ≤ 1.8) := by
  obtain ⟨hj1, hj2⟩ := hj
  obtain ⟨hw1, hw2⟩ := hw
  set v := p + j + w * 0.6 with hv
  have hb85 : (85 : ℚ) ≤ bounded v 85 99 := le_max_right _ _
  have hb99 : bounded v 85 99 ≤ 99 :=
    max_le (min_le_right _ _) (by norm_num)
  have hbl : p - 1.8 ≤ bounded v 85 99 := by
    refine le_trans (le_min ?_ ?_) (le_max_left _ _)
    · rw [hv]
      linarith
    · linarith
  have hbu : bounded v 85 99 ≤ p + 1.8 := by
    refine max_le (le_trans (min_le_left _ _) ?_) ?_
    · rw [hv]
      linarith
    · linarith
  have hrange := roundTo_mem 1 850 990 (bounded v 85 99)
    (by push_cast [pow_one]; linarith) (by push_cast [pow_one]; linarith)
  have hdrift := roundTo_mem 1 (g - 18) (g + 18) (bounded v 85 99)
    (by push_cast [pow_one]; linarith) (by push_cast [pow_one]; linarith)
  have e1 : ((850 : ℤ) : ℚ) / 10 ^ 1 = 85 := by norm_num
  have e2 : ((990 : ℤ) : ℚ) / 10 ^ 1 = 99 := by norm_num
  have e3 : (((g : ℤ) - 18 : ℤ) : ℚ) / 10 ^ 1 = p - 1.8 := by
    push_cast
    rw [← hg]
    ring
  have e4 : (((g : ℤ) + 18 : ℤ) : ℚ) / 10 ^ 1 = p + 1.8 := by
    push_cast
    rw [← hg]
    ring
  refine ⟨?_, ?_, ?_⟩
  · exact (e1.symm).trans_le hrange.1
  · exact hrange.2.trans_eq e2
  · rw [abs_le]
    have d1 := hdrift.1
    have d2 := hdrift.2
    rw [e3] at d1
    rw [e4] at d2
    constructor <;> linarith

/-- C7 (amended): after one `generate_next` call from a previous snapshot
whose `on_time_delivery_rate` lies in `[85, 99]` AND on the one-decimal
grid (`prev.on_time_delivery_rate * 10` is an integer — true of the
baseline `94.2` and of every snapshot the simulator itself produces, since
the field is rounded to one decimal place), the new `on_time_delivery_rate`
lies in `[85, 99]` and differs from the previous value by at most `1.8`,
rounding included.  Off the grid the `1.8` bound can fail by up to the
rounding half-step; see the counterexample. -/
theorem on_time_drift_bounded (s : MetricsSimulator) (prev : LogisticsMetrics)
    (g : ℤ) (hg : prev.on_time_delivery_rate * 10 = (g : ℚ))
    (hlo : 85 ≤ prev.on_time_delivery_rate)
    (hhi : prev.on_time_delivery_rate ≤ 99)
    (hu : ∀ j, 0 ≤ s.usample j ∧ s.usample j ≤ 1)
    (hw : ∀ x, |s.sinq x| ≤ 1) :
    (85 ≤ (MetricsSimulator.generate_next s prev).2.on_time_delivery_rate) ∧
    ((MetricsSimulator.generate_next s prev).2.on_time_delivery_rate ≤ 99) ∧
    (|(MetricsSimulator.generate_next s prev).2.on_time_delivery_rate -
        prev.on_time_delivery_rate| ≤ 1.8) := by
  dsimp only [MetricsSimulator.generate_next]
  exact roundTo_bounded_drift prev.on_time_delivery_rate (s.jitter 0 1.2)
    (s.sinq ((s.tick + 1 : ℚ) / 6)) g hg hlo hhi
    (jitter_abs s 0 1.2 hu (by norm_num)) (abs_le.mp (hw _))

/-- Witness for C7 at the baseline: seed-stream with all draws `1/2` and
zero wave, previous snapshot the baseline (`on_time = 94.2`, on the grid
via `g = 942`); the updated value stays in range and within `1.8`. -/
theorem on_time_drift_bounded_witness :
    (85 ≤ (MetricsSimulator.generate_next wSim (MetricsSimulator.initial_state 0)).2.on_time_delivery_rate) ∧
    ((MetricsSimulator.generate_next wSim (MetricsSimulator.initial_state 0)).2.on_time_delivery_rate ≤ 99) ∧
    (|(MetricsSimulator.generate_next wSim (MetricsSimulator.initial_state 0)).2.on_time_delivery_rate -
        (MetricsSimulator.initial_state 0).on_time_delivery_rate| ≤ 1.8) :=
  on_time_drift_bounded wSim (MetricsSimulator.initial_state 0) 942
    (by norm_num [MetricsSimulator.initial_state])
    (by norm_num [MetricsSimulator.initial_state])
    (by norm_num [MetricsSimulator.initial_state])
    (fun j => by norm_num [wSim])
    (fun x => by norm_num [wSim])

/-- Counterexample to C7 as stated: with the previous value `90.06` (in
range but off the one-decimal grid), jitter `1.199` (inside `(-1.2, 1.2)`)
and wave `0.999` (inside the range of `sin`), the pre-rounding value is
`91.8584`, which rounds to `91.9`, and `91.9 - 90.06 = 1.84 > 1.8`. -/
theorem on_time_drift_claim_false : ¬ singleStepDriftClaim := by
  intro h
  have hc := h cxSim cxPrev
    (fun k => by constructor <;> norm_num [cxSim])
    (fun x => by norm_num [cxSim, abs_le])
    (by norm_num [cxPrev, MetricsSimulator.initial_state])
    (by norm_num [cxPrev, MetricsSimulator.initial_state])
  have hval : (MetricsSimulator.generate_next cxSim cxPrev).2.on_time_delivery_rate =
      roundTo 1 (bounded
        ((90.06 : ℚ) + (-(1.2) + ((1.2 : ℚ) - -(1.2)) * (2399 / 2400)) +
          (999 / 1000 : ℚ) * 0.6) 85 99) := rfl
  have hinner : ((90.06 : ℚ) + (-(1.2) + ((1.2 : ℚ) - -(1.2)) * (2399 / 2400)) +
      (999 / 1000 : ℚ) * 0.6) = 918584 / 10000 := by norm_num
  have hbounded : bounded (918584 / 10000 : ℚ) 85 99 = 918584 / 10000 := by
    unfold bounded
    rw [min_eq_left (by norm_num), max_eq_left (by norm_num)]
  have hfloor : ⌊(918584 / 10000 : ℚ) * 10 ^ 1⌋ = 918 :=
    Int.floor_eq_iff.mpr ⟨by norm_num, by norm_num⟩
  have hround : roundTo 1 (918584 / 10000 : ℚ) = 919 / 10 := by
    unfold roundTo roundHalfEven
    rw [hfloor, if_neg (by norm_num), if_pos (by norm_num)]
    norm_num
  rw [hval, hinner, hbounded, hround,
    show cxPrev.on_time_delivery_rate = (90.06 : ℚ) from rfl, abs_le] at hc
  norm_num at hc

/-! ## Concurrent `generate_next_metrics` callers (C4) -/

theorem chainOutputs_succ (svc : MetricsService) (n : ℕ) :
    chainOutputs svc (n + 1) =
      chainOutputs svc n ++ [(svcIter svc (n + 1)).current] := by
  unfold chainOutputs
  rw [List.range_succ, List.map_append]
  rfl

theorem svcIter_timestamp (svc : MetricsService) (n : ℕ) :
    (svcIter svc n).current.timestamp = svc.current.timestamp + 300 * n := by
  induction n with
  | zero => simp [svcIter]
  | succ k ih =>
      have hstep : ∀ t : MetricsService,
          (MetricsService.generate_next_metrics t).1.current.timestamp =
            t.current.timestamp + 5 * 60 := fun t => rfl
      show (MetricsService.generate_next_metrics (svcIter svc k)).1.current.timestamp = _
      rw [hstep, ih]
      push_cast
      ring

theorem chainOutputs_nodup (svc : MetricsService) (n : ℕ) :
    (chainOutputs svc n).Nodup := by
  unfold chainOutputs
  refine List.Nodup.map_on ?_ (List.nodup_range n)
  intro x hx y hy hxy
  have ht : (svcIter svc (x + 1)).current.timestamp =
      (svcIter svc (y + 1)).current.timestamp := by rw [hxy]
  rw [svcIter_timestamp, svcIter_timestamp] at ht
  have hq : (x : ℚ) = (y : ℚ) := by
    push_cast at ht
    linarith
  exact_mod_cast hq

theorem filterMap_doneResult_replicate (n : ℕ) :
    List.filterMap doneResult (List.replicate n TaskPhase.waiting) = [] := by
  induction n with
  | zero => rfl
  | succ k ih => simp [List.replicate_succ, List.filterMap_cons, doneResult, ih]

theorem filterMap_doneResult_set_holding (l : List TaskPhase) (i : ℕ)
    (h : l[i]? = some TaskPhase.waiting) :
    List.filterMap doneResult (l.set i TaskPhase.holding) =
      List.filterMap doneResult l := by
  induction l generalizing i with
  | nil => rfl
  | cons t rest ih =>
      cases i with
      | zero =>
          simp only [List.getElem?_cons_zero, Option.some_inj] at h
          subst h
          rfl
      | succ k =>
          simp only [List.getElem?_cons_succ] at h
          show List.filterMap doneResult (t :: rest.set k TaskPhase.holding) = _
          cases t <;> simp [List.filterMap_cons, doneResult, ih k h]

theorem filterMap_doneResult_set_done (l : List TaskPhase) (i : ℕ)
    (r : LogisticsMetrics) (h : l[i]? = some TaskPhase.holding) :
    List.Perm (List.filterMap doneResult (l.set i (TaskPhase.done r)))
      (r :: List.filterMap doneResult l) := by
  induction l generalizing i with
  | nil => simp at h
  | cons t rest ih =>
      cases i with
      | zero =>
          simp only [List.getElem?_cons_zero, Option.some_inj] at h
          subst h
          simp [List.filterMap_cons, doneResult]
      | succ k =>
          simp only [List.getElem?_cons_succ] at h
          show List.Perm
            (List.filterMap doneResult (t :: rest.set k (TaskPhase.done r)))
            (r :: List.filterMap doneResult (t :: rest))
          cases t with
          | waiting =>
              simp only [List.filterMap_cons, doneResult]
              exact ih k h
          | holding =>
              simp only [List.filterMap_cons, doneResult]
              exact ih k h
          | done a =>
              simp only [List.filterMap_cons, doneResult]
              exact ((ih k h).cons a).trans (List.Perm.swap r a _)

theorem length_filterMap_all_done (l : List TaskPhase)
    (h : l.all isDone = true) :
    (List.filterMap doneResult l).length = l.length := by
  induction l with
  | nil => rfl
  | cons t rest ih =>
      simp only [List.all_cons, Bool.and_eq_true] at h
      cases t with
      | waiting => simp [isDone] at h
      | holding => simp [isDone] at h
      | done r => simp [List.filterMap_cons, doneResult, ih h.2]

/-- The atomic critical section advances both the log and the service in
lock-step with the sequential chain. -/
theorem holding_step_chain (svc0 : MetricsService) (st : SysState)
    (hsvc : st.svc = svcIter svc0 st.log.length)
    (hlog : st.log = chainOutputs svc0 st.log.length) :
    (st.log ++ [(MetricsService.generate_next_metrics st.svc).2] =
      chainOutputs svc0 (st.log.length + 1)) ∧
    ((MetricsService.generate_next_metrics st.svc).1 =
      svcIter svc0 (st.log.length + 1)) := by
  constructor
  · rw [chainOutputs_succ]
    congr 1
    rw [hsvc]
    rfl
  · rw [hsvc]
    rfl

theorem stepTask_inv (svc0 : MetricsService) (n : ℕ) (st : SysState) (i : ℕ)
    (h : SysInv svc0 n st) : SysInv svc0 n (stepTask st i) := by
  obtain ⟨hlen, hsvc, hlog, hperm⟩ := h
  unfold stepTask
  split
  · rename_i heq
    split_ifs with hfree
    · refine ⟨by simpa [List.length_set] using hlen, hsvc, hlog, ?_⟩
      rw [filterMap_doneResult_set_holding st.tasks i heq]
      exact hperm
    · exact ⟨hlen, hsvc, hlog, hperm⟩
  · rename_i heq
    have hstep := holding_step_chain svc0 st hsvc hlog
    have hlen2 : (st.log ++ [(MetricsService.generate_next_metrics st.svc).2]).length =
        st.log.length + 1 := by simp
    refine ⟨by simpa [List.length_set] using hlen, ?_, ?_, ?_⟩
    · show (MetricsService.generate_next_metrics st.svc).1 = _
      rw [hlen2]
      exact hstep.2
    · show st.log ++ [(MetricsService.generate_next_metrics st.svc).2] =
        chainOutputs svc0 (st.log ++ [(MetricsService.generate_next_metrics st.svc).2]).length
      rw [hlen2]
      exact hstep.1
    · show List.Perm
        (List.filterMap doneResult
          (st.tasks.set i (TaskPhase.done (MetricsService.generate_next_metrics st.svc).2)))
        (st.log ++ [(MetricsService.generate_next_metrics st.svc).2])
      refine (filterMap_doneResult_set_done st.tasks i _ heq).trans ?_
      exact (hperm.cons _).trans (List.perm_append_singleton _ _).symm
  · exact ⟨hlen, hsvc, hlog, hperm⟩

theorem runSched_inv (svc0 : MetricsService) (n : ℕ) (sched : List ℕ)
    (st : SysState) (h : SysInv svc0 n st) :
    SysInv svc0 n (runSched st sched) := by
  induction sched generalizing st with
  | nil => exact h
  | cons i rest ih => exact ih (stepTask st i) (stepTask_inv svc0 n st i h)

theorem initSys_inv (svc0 : MetricsService) (n : ℕ) :
    SysInv svc0 n (initSys svc0 n) := by
  refine ⟨List.length_replicate n _, rfl, rfl, ?_⟩
  rw [show (initSys svc0 n).tasks = List.replicate n TaskPhase.waiting from rfl,
    filterMap_doneResult_replicate]
  exact List.Perm.refl _

/-- C4: for any number `n` of concurrent callers of
`generate_next_metrics` and any scheduler interleaving under which every
caller completes, the completion log is exactly the sequential chain of
`n` snapshots (each generated from the snapshot immediately prior in the
completion order — no lost update, no previous snapshot consumed twice),
the callers' returned values are a permutation of that chain, and the `n`
snapshots are pairwise distinct (their timestamps strictly increase). -/
theorem concurrent_advances_form_chain (svc0 : MetricsService) (n : ℕ)
    (sched : List ℕ)
    (hdone : (runSched (initSys svc0 n) sched).tasks.all isDone = true) :
    ((runSched (initSys svc0 n) sched).log = chainOutputs svc0 n) ∧
    ((runSched (initSys svc0 n) sched).log.length = n) ∧
    (List.Perm
      ((runSched (initSys svc0 n) sched).tasks.filterMap doneResult)
      (chainOutputs svc0 n)) ∧
    ((chainOutputs svc0 n).Nodup) := by
  obtain ⟨hlen, hsvc, hlog, hperm⟩ :=
    runSched_inv svc0 n sched (initSys svc0 n) (initSys_inv svc0 n)
  have hlength : (runSched (initSys svc0 n) sched).log.length = n := by
    have h1 := hperm.length_eq
    rw [length_filterMap_all_done _ hdone, hlen] at h1
    omega
  rw [hlength] at hlog
  exact ⟨hlog, hlength, hlog ▸ hperm, chainOutputs_nodup svc0 n⟩

/-- Witness for C4: two concurrent callers over the concrete service, with
the schedule acquire(0), run(0), acquire(1), run(1); both complete and the
theorem yields the 2-element chain with its distinctness. -/
theorem concurrent_advances_form_chain_witness :
    ((runSched (initSys wSvc 2) [0, 0, 1, 1]).log = chainOutputs wSvc 2) ∧
    ((runSched (initSys wSvc 2) [0, 0, 1, 1]).log.length = 2) ∧
    (List.Perm
      ((runSched (initSys wSvc 2) [0, 0, 1, 1]).tasks.filterMap doneResult)
      (chainOutputs wSvc 2)) ∧
    ((chainOutputs wSvc 2).Nodup) :=
  concurrent_advances_form_chain wSvc 2 [0, 0, 1, 1] rfl

end LogisticsDashboard
